import Mathlib

/-!
Verification of the orchestration core of the Nexus backend
(`backend/app/core/orchestration` and `backend/app/core/agents`).

The Python code is shallowly embedded: pydantic models become structures,
`datetime` timestamps become `Nat`, async effects (LLM calls, timeouts,
exceptions) become explicit outcome values passed as parameters.

Python float arithmetic (sentiment averages, the 0.6/0.5 consensus
thresholds, confidence scores) is modelled exactly: threshold comparisons
of the form `x / n >= t` are embedded as integer cross-multiplications
(`b*x >= a*n` for `t = a/b`), which agree with the exact rational
comparison the source intends; the claim-side statements phrase the same
conditions over `ℚ` and the theorems prove the two readings equivalent.
Python string methods are embedded as structural functions on `List Char`
(ASCII-faithful).
-/

/-! ## Data model (`app/schemas/agent.py`, `app/schemas/feedback.py`) -/

/-- `AgentSentiment` enum from `app/schemas/agent.py`. -/
inductive AgentSentiment where
  | VERY_POSITIVE
  | POSITIVE
  | NEUTRAL
  | CAUTIOUS
  | NEGATIVE
deriving DecidableEq, Repr

/-- The string `value` of each `AgentSentiment` enum member. -/
def sentimentValue : AgentSentiment → String
  | .VERY_POSITIVE => "very_positive"
  | .POSITIVE => "positive"
  | .NEUTRAL => "neutral"
  | .CAUTIOUS => "cautious"
  | .NEGATIVE => "negative"

/-- `AgentResponse` model from `app/schemas/agent.py`.
`confidence_score` is a Python float, modelled as `ℚ`; `timestamp` is a
`datetime`, modelled as `Nat`. -/
structure AgentResponse where
  agent_id : String
  agent_name : String
  round_number : Nat
  sentiment : AgentSentiment
  summary : String
  detailed_feedback : String
  opportunities : List String
  concerns : List String
  questions : List String
  recommendations : List String
  confidence_score : ℚ
  responding_to : Option (List String)
  timestamp : Nat
deriving DecidableEq, Repr

/-- One entry of `divergent_opinions`: in the Python code a
`Dict[str, str]` with keys `topic`, `viewpoint_a`, `viewpoint_b`
(built in `ResponseSynthesizer._find_divergent_opinions`). -/
structure DivergentOpinion where
  topic : String
  viewpoint_a : String
  viewpoint_b : String
deriving DecidableEq, Repr

/-- `FeedbackSynthesis` model from `app/schemas/feedback.py`. -/
structure FeedbackSynthesis where
  round_number : Nat
  total_agents : Nat
  consensus_insights : List String
  divergent_opinions : List DivergentOpinion
  top_opportunities : List String
  top_concerns : List String
  priority_questions : List String
  next_steps_suggested : List String
  overall_sentiment : AgentSentiment
  confidence_level : String
deriving DecidableEq, Repr

/-- `FeedbackRoundStatus` enum from `app/schemas/feedback.py`. -/
inductive FeedbackRoundStatus where
  | PENDING
  | IN_PROGRESS
  | COMPLETED
  | FAILED
deriving DecidableEq, Repr

/-- One entry of `FeedbackRound.divergent_points`: a dict
`{"topic": ..., "views": [...]}` built in
`FeedbackLoopManager.execute_round`. -/
structure DivergentPoint where
  topic : String
  views : List String
deriving DecidableEq, Repr

/-- `FeedbackRound` model from `app/schemas/feedback.py`.
The `synthesis` field holds `synthesis.model_dump_json()` in Python (a JSON
string); it is modelled as the synthesis value itself, `none` when unset. -/
structure FeedbackRound where
  round_id : String
  session_id : String
  round_number : Nat
  status : FeedbackRoundStatus
  user_input : Option String
  agent_responses : List AgentResponse
  synthesis : Option FeedbackSynthesis
  consensus_points : List String
  divergent_points : List DivergentPoint
  overall_sentiment : AgentSentiment
  started_at : Nat
  completed_at : Option Nat
deriving DecidableEq, Repr

/-! ## Python string helpers, embedded on `List Char` -/

/-- Python `s.startswith(pat)` / the inner step of `pat in s`:
does `pat` occur at the head of the char list? -/
def isPrefixChars : List Char → List Char → Bool
  | [], _ => true
  | _ :: _, [] => false
  | p :: ps, c :: cs => p == c && isPrefixChars ps cs

/-- Python `pat in s` (substring containment) on char lists. -/
def containsSub (pat : List Char) : List Char → Bool
  | [] => pat.isEmpty
  | c :: rest => isPrefixChars pat (c :: rest) || containsSub pat rest

/-- Python `pat in s` (substring containment) on strings. -/
def strContains (s pat : String) : Bool :=
  containsSub pat.toList s.toList

/-- Python `s.count(pat)`: non-overlapping occurrences of `pat`, scanning
left to right.  The `fuel` argument (instantiated with the list length)
makes the recursion structural; it never runs out because every step
consumes at least one character. -/
def countSubGo (pat : List Char) : Nat → List Char → Nat
  | 0, _ => 0
  | _, [] => 0
  | fuel + 1, c :: rest =>
    if isPrefixChars pat (c :: rest) then
      1 + countSubGo pat fuel (rest.drop (pat.length - 1))
    else
      countSubGo pat fuel rest

/-- Python `s.count(pat)` on strings (for non-empty `pat`). -/
def countSubstr (s pat : String) : Nat :=
  countSubGo pat.toList s.toList.length s.toList

/-- Python `s.lower()` (ASCII model). -/
def pyLower (s : String) : String :=
  (s.toList.map Char.toLower).asString

/-- Python `' '.join(parts)`. -/
def joinSpace (parts : List String) : String :=
  String.intercalate " " parts

/-! ## List helpers modelling Python's `collections.Counter`

`Counter(xs)` iterates keys in first-occurrence order;
`Counter.most_common(n)` returns the `n` keys of largest count,
ties broken by first-occurrence (insertion) order, because
`heapq.nlargest` is stable. -/

/-- Worker for `dedupFirst`: `seen` holds the elements already emitted. -/
def dedupFirstAux {α : Type} [DecidableEq α] (seen : List α) : List α → List α
  | [] => []
  | x :: xs =>
    if x ∈ seen then dedupFirstAux seen xs
    else x :: dedupFirstAux (x :: seen) xs

/-- The distinct elements of `l` in order of first occurrence: the key
iteration order of `collections.Counter(l)`. -/
def dedupFirst {α : Type} [DecidableEq α] (l : List α) : List α :=
  dedupFirstAux [] l

/-- The order in which `Counter(flat).most_common` returns keys:
strictly larger count first; for equal counts, the key occurring first in
`flat` first (stability of `heapq.nlargest`). -/
def rankLE (flat : List String) (a b : String) : Prop :=
  flat.count b < flat.count a ∨
    (flat.count a = flat.count b ∧ flat.indexOf a ≤ flat.indexOf b)

instance (flat : List String) : DecidableRel (rankLE flat) := fun _ _ => by
  unfold rankLE; infer_instance

instance (flat : List String) : IsTotal String (rankLE flat) := by
  constructor
  intro a b
  simp only [rankLE]
  omega

instance (flat : List String) : IsTrans String (rankLE flat) := by
  constructor
  intro a b c hab hbc
  simp only [rankLE] at *
  omega

/-! ## `ResponseSynthesizer` (`app/core/orchestration/synthesizer.py`) -/

/-- `ResponseSynthesizer._aggregate_items`: flatten the lists, count with
`Counter`, return `most_common(top_n)`.  `most_common` is modelled as the
distinct items (first-occurrence order) sorted by `rankLE` (count
descending, ties by first occurrence), truncated to `top_n`. -/
def aggregate_items (item_lists : List (List String)) (top_n : Nat) : List String :=
  let all_items := item_lists.flatten
  (List.insertionSort (rankLE all_items) (dedupFirst all_items)).take top_n

/-- The integer value given to each sentiment in
`ResponseSynthesizer._calculate_overall_sentiment`. -/
def sentiment_values : AgentSentiment → Int
  | .VERY_POSITIVE => 2
  | .POSITIVE => 1
  | .NEUTRAL => 0
  | .CAUTIOUS => -1
  | .NEGATIVE => -2

/-- `ResponseSynthesizer._calculate_overall_sentiment`: average the
sentiment values (`avg_value = total / n`) and re-bucket by the fixed
thresholds `1.5, 0.5, -0.5, -1.5`.  Each float comparison
`total / n ⋈ a/2` is embedded exactly as `2 * total ⋈ a * n`
(`n = len(responses) > 0` at every call site, guarded in `synthesize`). -/
def calculate_overall_sentiment (responses : List AgentResponse) : AgentSentiment :=
  let total : Int := (responses.map (fun r => sentiment_values r.sentiment)).sum
  let n : Int := responses.length
  if 2 * total ≥ 3 * n then .VERY_POSITIVE
  else if 2 * total ≥ n then .POSITIVE
  else if 2 * total > -n then .NEUTRAL
  else if 2 * total > -(3 * n) then .CAUTIOUS
  else .NEGATIVE

/-- `ResponseSynthesizer._find_divergent_opinions`: triggered when the
responses span at least 3 distinct sentiments; pairs the first
positive-group response with the first negative-group response. -/
def find_divergent_opinions (responses : List AgentResponse) : List DivergentOpinion :=
  let sentiments := responses.map (·.sentiment)
  if (dedupFirst sentiments).length ≥ 3 then
    let positive := responses.filter
      (fun r => r.sentiment = .VERY_POSITIVE ∨ r.sentiment = .POSITIVE)
    let negative := responses.filter
      (fun r => r.sentiment = .NEGATIVE ∨ r.sentiment = .CAUTIOUS)
    match positive.head?, negative.head? with
    | some p, some q =>
        [{ topic := "Overall Assessment",
           viewpoint_a := p.agent_name ++ " is optimistic: " ++ p.summary.take 100 ++ "...",
           viewpoint_b := q.agent_name ++ " is cautious: " ++ q.summary.take 100 ++ "..." }]
    | _, _ => []
  else []

/-- `most_common(1)[0]` of `Counter(sents)`: the first-inserted key of
maximal count, with its count (Python `max` keeps the first maximum). -/
def most_common1 (sents : List AgentSentiment) : AgentSentiment × Nat :=
  (dedupFirst sents).foldl
    (fun best k => if sents.count k > best.2 then (k, sents.count k) else best)
    (.NEUTRAL, 0)

/-- `most_common_sentiment[0].value.replace('_', ' ')` (the pattern is a
single character, so `str.replace` is character-wise here). -/
def displaySentiment (s : AgentSentiment) : String :=
  ((sentimentValue s).toList.map (fun c => if c = '_' then ' ' else c)).asString

/-- The sentiment-agreement consensus string built in
`ResponseSynthesizer._find_consensus`. -/
def consensus_line (count n : Nat) (s : AgentSentiment) : String :=
  toString count ++ " out of " ++ toString n ++ " experts are " ++
    displaySentiment s ++ " about this idea"

/-- The fixed keyword list of `ResponseSynthesizer._find_consensus`. -/
def common_opportunity_terms : List String :=
  ["market", "growth", "demand", "innovation", "potential"]

/-- `ResponseSynthesizer._find_consensus`: one sentiment-agreement line if
the most common sentiment covers at least 60% of responses
(`count >= n * 0.6`, embedded as `5 * count ≥ 3 * n`), then one line per
fixed keyword whose occurrence count in the joined lower-cased opportunity
text reaches 50% of the number of responses (`count >= n * 0.5`, embedded
as `2 * count ≥ n`); capped at 5 entries. -/
def find_consensus (responses : List AgentResponse) : List String :=
  let n := responses.length
  let mc := most_common1 (responses.map (·.sentiment))
  let base : List String :=
    if 5 * mc.2 ≥ 3 * n then [consensus_line mc.2 n mc.1] else []
  let all_opportunities :=
    pyLower (joinSpace (responses.map (fun r => joinSpace r.opportunities)))
  let keyword_lines := common_opportunity_terms.filterMap (fun term =>
    if 2 * countSubstr all_opportunities term ≥ n then
      some ("Multiple experts highlight " ++ term ++ "-related opportunities")
    else none)
  (base ++ keyword_lines).take 5

/-- `ResponseSynthesizer._confidence_to_level` (confidence scores stay in
`ℚ`; no claim depends on them). -/
def confidence_to_level (avg_confidence : ℚ) : String :=
  if avg_confidence ≥ 4/5 then "high"
  else if avg_confidence ≥ 3/5 then "medium"
  else "low"

/-- `ResponseSynthesizer.synthesize`. -/
def synthesize (responses : List AgentResponse) (round_number : Nat) : FeedbackSynthesis :=
  if responses.isEmpty then
    { round_number := round_number
      total_agents := 0
      consensus_insights := []
      divergent_opinions := []
      top_opportunities := []
      top_concerns := []
      priority_questions := []
      next_steps_suggested := []
      overall_sentiment := .NEUTRAL
      confidence_level := "low" }
  else
    { round_number := round_number
      total_agents := responses.length
      consensus_insights := find_consensus responses
      divergent_opinions := find_divergent_opinions responses
      top_opportunities := aggregate_items (responses.map (·.opportunities)) 5
      top_concerns := aggregate_items (responses.map (·.concerns)) 5
      priority_questions := aggregate_items (responses.map (·.questions)) 5
      next_steps_suggested := aggregate_items (responses.map (·.recommendations)) 6
      overall_sentiment := calculate_overall_sentiment responses
      confidence_level :=
        confidence_to_level
          (((responses.map (·.confidence_score)).sum) / responses.length) }

/-! ## Helper lemmas about `dedupFirst` -/

theorem mem_dedupFirstAux {α : Type} [DecidableEq α] (seen l : List α) (x : α) :
    x ∈ dedupFirstAux seen l ↔ x ∈ l ∧ x ∉ seen := by
  induction l generalizing seen with
  | nil => simp [dedupFirstAux]
  | cons a xs ih =>
    simp only [dedupFirstAux]
    split
    · rename_i ha
      rw [ih, List.mem_cons]
      constructor
      · rintro ⟨h1, h2⟩
        exact ⟨Or.inr h1, h2⟩
      · rintro ⟨h1, h2⟩
        rcases h1 with rfl | hm
        · exact absurd ha h2
        · exact ⟨hm, h2⟩
    · rename_i ha
      rw [List.mem_cons, ih, List.mem_cons, List.mem_cons]
      constructor
      · rintro (rfl | ⟨h1, h2⟩)
        · exact ⟨Or.inl rfl, ha⟩
        · exact ⟨Or.inr h1, fun hs => h2 (Or.inr hs)⟩
      · rintro ⟨h1, h2⟩
        rcases h1 with rfl | hm
        · exact Or.inl rfl
        · by_cases hxa : x = a
          · exact Or.inl hxa
          · exact Or.inr ⟨hm, fun hs => hs.elim hxa h2⟩

theorem nodup_dedupFirstAux {α : Type} [DecidableEq α] (seen l : List α) :
    (dedupFirstAux seen l).Nodup := by
  induction l generalizing seen with
  | nil => simp [dedupFirstAux]
  | cons a xs ih =>
    simp only [dedupFirstAux]
    split
    · exact ih seen
    · refine List.Nodup.cons (fun hmem => ?_) (ih (a :: seen))
      have := (mem_dedupFirstAux (a :: seen) xs a).mp hmem
      exact this.2 (List.mem_cons_self _ _)

theorem mem_dedupFirst {α : Type} [DecidableEq α] (l : List α) (x : α) :
    x ∈ dedupFirst l ↔ x ∈ l := by
  rw [dedupFirst, mem_dedupFirstAux]
  simp

theorem nodup_dedupFirst {α : Type} [DecidableEq α] (l : List α) :
    (dedupFirst l).Nodup :=
  nodup_dedupFirstAux [] l

/-- The non-empty branch of `synthesize` spelled out. -/
theorem synthesize_nonempty (rs : List AgentResponse) (k : Nat) (h : rs ≠ []) :
    synthesize rs k =
      { round_number := k
        total_agents := rs.length
        consensus_insights := find_consensus rs
        divergent_opinions := find_divergent_opinions rs
        top_opportunities := aggregate_items (rs.map (·.opportunities)) 5
        top_concerns := aggregate_items (rs.map (·.concerns)) 5
        priority_questions := aggregate_items (rs.map (·.questions)) 5
        next_steps_suggested := aggregate_items (rs.map (·.recommendations)) 6
        overall_sentiment := calculate_overall_sentiment rs
        confidence_level :=
          confidence_to_level
            (((rs.map (·.confidence_score)).sum) / rs.length) } := by
  cases rs with
  | nil => exact absurd rfl h
  | cons a t => rfl

/-- C4: for each of opportunities, concerns, questions, and recommendations
independently, `synthesize` flattens all agents' lists keeping duplicates,
ranks distinct strings by descending frequency with ties broken by order
of first occurrence across the fixed agent-iteration order (`rankLE`), and
caps opportunities, concerns, and questions at 5 entries and
recommendations (next steps) at 6. -/
theorem synthesize_aggregation (rs : List AgentResponse) (k : Nat) :
    ((synthesize rs k).top_opportunities = aggregate_items (rs.map (·.opportunities)) 5
      ∧ (synthesize rs k).top_concerns = aggregate_items (rs.map (·.concerns)) 5
      ∧ (synthesize rs k).priority_questions = aggregate_items (rs.map (·.questions)) 5
      ∧ (synthesize rs k).next_steps_suggested = aggregate_items (rs.map (·.recommendations)) 6)
    ∧ ∀ (ls : List (List String)) (n : Nat),
        aggregate_items ls n
            = (List.insertionSort (rankLE ls.flatten) (dedupFirst ls.flatten)).take n
          ∧ List.Sorted (rankLE ls.flatten)
              (List.insertionSort (rankLE ls.flatten) (dedupFirst ls.flatten))
          ∧ List.Perm (List.insertionSort (rankLE ls.flatten) (dedupFirst ls.flatten))
              (dedupFirst ls.flatten)
          ∧ (dedupFirst ls.flatten).Nodup
          ∧ (∀ x, x ∈ dedupFirst ls.flatten ↔ x ∈ ls.flatten)
          ∧ (aggregate_items ls n).length ≤ n := by
  constructor
  · cases rs with
    | nil => exact ⟨rfl, rfl, rfl, rfl⟩
    | cons a t => exact ⟨rfl, rfl, rfl, rfl⟩
  · intro ls n
    refine ⟨rfl, List.sorted_insertionSort _ _, List.perm_insertionSort _ _,
      nodup_dedupFirst _, fun x => mem_dedupFirst _ x, ?_⟩
    simp only [aggregate_items, List.length_take]
    exact Nat.min_le_left _ _

/-- C3: for every non-empty input list, `synthesize` emits a divergent
opinion exactly when the responses span at least 3 distinct sentiment
categories and both the positive group {VERY_POSITIVE, POSITIVE} and the
negative group {NEGATIVE, CAUTIOUS} are non-empty; in that case it emits
exactly one divergence record pairing the first positive-group response
with the first negative-group response in original list order, and
NEUTRAL responses can anchor neither side. -/
theorem synthesize_divergence (rs : List AgentResponse) (k : Nat) (h : rs ≠ []) :
    ((synthesize rs k).divergent_opinions ≠ [] ↔
        3 ≤ (dedupFirst (rs.map (·.sentiment))).length
          ∧ rs.filter (fun r => r.sentiment = .VERY_POSITIVE ∨ r.sentiment = .POSITIVE) ≠ []
          ∧ rs.filter (fun r => r.sentiment = .NEGATIVE ∨ r.sentiment = .CAUTIOUS) ≠ [])
    ∧ (∀ p q,
        (rs.filter (fun r => r.sentiment = .VERY_POSITIVE ∨ r.sentiment = .POSITIVE)).head?
            = some p →
        (rs.filter (fun r => r.sentiment = .NEGATIVE ∨ r.sentiment = .CAUTIOUS)).head?
            = some q →
        3 ≤ (dedupFirst (rs.map (·.sentiment))).length →
        (synthesize rs k).divergent_opinions = [⟨"Overall Assessment",
            p.agent_name ++ " is optimistic: " ++ p.summary.take 100 ++ "...",
            q.agent_name ++ " is cautious: " ++ q.summary.take 100 ++ "..."⟩])
    ∧ (∀ r ∈ rs, r.sentiment = .NEUTRAL →
        r ∉ rs.filter (fun r => r.sentiment = .VERY_POSITIVE ∨ r.sentiment = .POSITIVE)
          ∧ r ∉ rs.filter (fun r => r.sentiment = .NEGATIVE ∨ r.sentiment = .CAUTIOUS)) := by
  rw [synthesize_nonempty rs k h]
  refine ⟨?_, ?_, ?_⟩
  · simp only [find_divergent_opinions]
    split
    · rename_i hge
      cases hpos : (rs.filter
          (fun r => r.sentiment = .VERY_POSITIVE ∨ r.sentiment = .POSITIVE)).head? with
      | none =>
        have hp0 := List.head?_eq_none_iff.mp hpos
        cases hneg : (rs.filter
            (fun r => r.sentiment = .NEGATIVE ∨ r.sentiment = .CAUTIOUS)).head? with
        | none => exact iff_of_false (by simp) (fun hc => hc.2.1 hp0)
        | some q => exact iff_of_false (by simp) (fun hc => hc.2.1 hp0)
      | some p =>
        cases hneg : (rs.filter
            (fun r => r.sentiment = .NEGATIVE ∨ r.sentiment = .CAUTIOUS)).head? with
        | none =>
          have hq0 := List.head?_eq_none_iff.mp hneg
          exact iff_of_false (by simp) (fun hc => hc.2.2 hq0)
        | some q =>
          have h1 : rs.filter
              (fun r => r.sentiment = .VERY_POSITIVE ∨ r.sentiment = .POSITIVE) ≠ [] := by
            intro he; rw [he] at hpos; simp at hpos
          have h2 : rs.filter
              (fun r => r.sentiment = .NEGATIVE ∨ r.sentiment = .CAUTIOUS) ≠ [] := by
            intro he; rw [he] at hneg; simp at hneg
          exact iff_of_true (by simp) ⟨hge, h1, h2⟩
    · rename_i hlt
      exact iff_of_false (by simp) (fun hc => hlt hc.1)
  · intro p q hp hq hge
    simp only [find_divergent_opinions]
    rw [if_pos hge, hp, hq]
  · intro r hr hneu
    constructor
    · intro hmem
      have := (List.mem_filter.mp hmem).2
      simp [hneu] at this
    · intro hmem
      have := (List.mem_filter.mp hmem).2
      simp [hneu] at this

/-- A concrete response used to instantiate witnesses. -/
def demoR (s : AgentSentiment) (name : String) : AgentResponse :=
  { agent_id := name
    agent_name := name
    round_number := 1
    sentiment := s
    summary := "sum-" ++ name
    detailed_feedback := ""
    opportunities := []
    concerns := []
    questions := []
    recommendations := []
    confidence_score := 1
    responding_to := none
    timestamp := 0 }

set_option maxRecDepth 10000 in
/-- Witness for C3 at the spec's example sentiment profile
[VERY_POSITIVE, POSITIVE, NEUTRAL, CAUTIOUS, NEGATIVE]. -/
theorem synthesize_divergence_witness :
    (synthesize [demoR .VERY_POSITIVE "a", demoR .POSITIVE "b", demoR .NEUTRAL "c",
        demoR .CAUTIOUS "d", demoR .NEGATIVE "e"] 1).divergent_opinions
      = [⟨"Overall Assessment", "a is optimistic: sum-a...", "d is cautious: sum-d..."⟩] := by
  have h := synthesize_divergence [demoR .VERY_POSITIVE "a", demoR .POSITIVE "b",
    demoR .NEUTRAL "c", demoR .CAUTIOUS "d", demoR .NEGATIVE "e"] 1 (by decide)
  rw [h.2.1 (demoR .VERY_POSITIVE "a") (demoR .CAUTIOUS "d")
    (by decide) (by decide) (by decide)]
  decide

/-- Modelled from the claim's words: the 5-point sentiment scale. -/
def spec_sentiment_scale : AgentSentiment → Int
  | .VERY_POSITIVE => 2
  | .POSITIVE => 1
  | .NEUTRAL => 0
  | .CAUTIOUS => -1
  | .NEGATIVE => -2

/-- Modelled from the claim's words: bucket an exact average by the fixed
thresholds `≥1.5, ≥0.5, >−0.5, >−1.5`. -/
def spec_sentiment_bucket (avg : ℚ) : AgentSentiment :=
  if avg ≥ 3/2 then .VERY_POSITIVE
  else if avg ≥ 1/2 then .POSITIVE
  else if avg > -(1/2) then .NEUTRAL
  else if avg > -(3/2) then .CAUTIOUS
  else .NEGATIVE

theorem div_half_le_avg (a t : Int) (n : Nat) (hn : 0 < n) :
    ((a : ℚ) / 2 ≤ (t : ℚ) / (n : ℚ)) ↔ a * (n : Int) ≤ 2 * t := by
  rw [div_le_div_iff₀ (by norm_num) (by exact_mod_cast hn : (0 : ℚ) < (n : ℚ))]
  constructor <;> intro hh
  · have h2 : a * (n : Int) ≤ t * 2 := by exact_mod_cast hh
    omega
  · have h2 : a * (n : Int) ≤ t * 2 := by omega
    exact_mod_cast h2

theorem div_half_lt_avg (a t : Int) (n : Nat) (hn : 0 < n) :
    ((a : ℚ) / 2 < (t : ℚ) / (n : ℚ)) ↔ a * (n : Int) < 2 * t := by
  rw [div_lt_div_iff₀ (by norm_num) (by exact_mod_cast hn : (0 : ℚ) < (n : ℚ))]
  constructor <;> intro hh
  · have h2 : a * (n : Int) < t * 2 := by exact_mod_cast hh
    omega
  · have h2 : a * (n : Int) < t * 2 := by omega
    exact_mod_cast h2

/-- The integer-embedded threshold chain of
`_calculate_overall_sentiment` computes the spec's exact-average
bucketing. -/
theorem calc_overall_eq_bucket (rs : List AgentResponse) (h : rs ≠ []) :
    calculate_overall_sentiment rs
      = spec_sentiment_bucket
          (((rs.map (fun r => sentiment_values r.sentiment)).sum : ℚ) / (rs.length : ℚ)) := by
  have hn : 0 < rs.length := List.length_pos.mpr h
  set t : Int := (rs.map (fun r => sentiment_values r.sentiment)).sum with ht
  have e1 : ((3 : ℚ)/2 ≤ (t : ℚ) / (rs.length : ℚ)) ↔ (3 * (rs.length : Int) ≤ 2 * t) := by
    rw [show (3 : ℚ)/2 = ((3 : Int) : ℚ) / 2 by norm_num, div_half_le_avg 3 t rs.length hn]
  have e2 : ((1 : ℚ)/2 ≤ (t : ℚ) / (rs.length : ℚ)) ↔ ((rs.length : Int) ≤ 2 * t) := by
    rw [show (1 : ℚ)/2 = ((1 : Int) : ℚ) / 2 by norm_num, div_half_le_avg 1 t rs.length hn]
    omega
  have e3 : (-((1 : ℚ)/2) < (t : ℚ) / (rs.length : ℚ)) ↔ (-(rs.length : Int) < 2 * t) := by
    rw [show -((1 : ℚ)/2) = ((-1 : Int) : ℚ) / 2 by norm_num, div_half_lt_avg (-1) t rs.length hn]
    omega
  have e4 : (-((3 : ℚ)/2) < (t : ℚ) / (rs.length : ℚ)) ↔ (-(3 * (rs.length : Int)) < 2 * t) := by
    rw [show -((3 : ℚ)/2) = ((-3 : Int) : ℚ) / 2 by norm_num, div_half_lt_avg (-3) t rs.length hn]
    omega
  simp only [calculate_overall_sentiment, spec_sentiment_bucket, ← ht, ge_iff_le, gt_iff_lt]
  simp only [e1, e2, e3, e4]

/-- C5: for every non-empty input list, `synthesize` computes
`overall_sentiment` by mapping each response's sentiment to
{VERY_POSITIVE:+2, POSITIVE:+1, NEUTRAL:0, CAUTIOUS:−1, NEGATIVE:−2},
averaging over all responses, and bucketing the average as
≥1.5→VERY_POSITIVE, ≥0.5→POSITIVE, >−0.5→NEUTRAL, >−1.5→CAUTIOUS, else
NEGATIVE; in particular, sentiments [POSITIVE, POSITIVE, NEUTRAL] yield
POSITIVE. -/
theorem synthesize_overall_sentiment (rs : List AgentResponse) (k : Nat) (h : rs ≠ []) :
    (synthesize rs k).overall_sentiment
        = spec_sentiment_bucket
            (((rs.map (fun r => spec_sentiment_scale r.sentiment)).sum : ℚ) / (rs.length : ℚ))
    ∧ ∀ rs2 : List AgentResponse,
        rs2.map (·.sentiment) = [.POSITIVE, .POSITIVE, .NEUTRAL] →
        (synthesize rs2 k).overall_sentiment = .POSITIVE := by
  constructor
  · rw [synthesize_nonempty rs k h]
    have hscale : (fun r : AgentResponse => spec_sentiment_scale r.sentiment)
        = (fun r : AgentResponse => sentiment_values r.sentiment) := by
      funext r; cases r.sentiment <;> rfl
    rw [hscale]
    exact calc_overall_eq_bucket rs h
  · intro rs2 hmap
    have hne : rs2 ≠ [] := by
      intro he; rw [he] at hmap; simp at hmap
    rw [synthesize_nonempty rs2 k hne]
    have hlen : rs2.length = 3 := by
      have := congrArg List.length hmap
      simpa using this
    have hsum : (rs2.map (fun r => sentiment_values r.sentiment)).sum = 2 := by
      have hcomp : rs2.map (fun r => sentiment_values r.sentiment)
          = (rs2.map (·.sentiment)).map sentiment_values := by
        rw [List.map_map]
        rfl
      rw [hcomp, hmap]
      decide
    simp only [calculate_overall_sentiment, hsum, hlen]
    decide

/-- Witness for C5 at sentiments [POSITIVE, POSITIVE, NEUTRAL]. -/
theorem synthesize_overall_sentiment_witness :
    (synthesize [demoR .POSITIVE "a", demoR .POSITIVE "b", demoR .NEUTRAL "c"] 1).overall_sentiment
      = .POSITIVE := by
  have h := synthesize_overall_sentiment
    [demoR .POSITIVE "a", demoR .POSITIVE "b", demoR .NEUTRAL "c"] 1 (by decide)
  exact h.2 [demoR .POSITIVE "a", demoR .POSITIVE "b", demoR .NEUTRAL "c"] (by decide)

/-- The integer embedding `5*count ≥ 3*n` of the source's
`count >= len(responses) * 0.6` agrees with the exact reading over `ℚ`. -/
theorem consensus_threshold_iff (c n : Nat) :
    ((n : ℚ) * (3/5) ≤ (c : ℚ)) ↔ 3 * n ≤ 5 * c := by
  constructor
  · intro hh
    have h3 : ((3 * n : Nat) : ℚ) ≤ ((5 * c : Nat) : ℚ) := by push_cast; linarith
    exact_mod_cast h3
  · intro hh
    have h3 : ((3 * n : Nat) : ℚ) ≤ ((5 * c : Nat) : ℚ) := by exact_mod_cast hh
    push_cast at h3
    linarith

/-- C6: for every non-empty input list of N responses, if the most
frequent sentiment occurs in at least 0.6·N responses (embedded as
`3*N ≤ 5*count`, proved equivalent to the exact `count ≥ N·(3/5)` over
`ℚ`), `synthesize` puts the string
"count out of N experts are sentiment about this idea" first in
`consensus_insights`, and the combined consensus list is capped at 5;
in particular 5 responses with sentiments
[POSITIVE, POSITIVE, POSITIVE, POSITIVE, NEUTRAL] produce the consensus
insight "4 out of 5 experts are positive about this idea". -/
theorem synthesize_consensus (rs : List AgentResponse) (k : Nat) (h : rs ≠ []) :
    (3 * rs.length ≤ 5 * (most_common1 (rs.map (·.sentiment))).2 →
        (synthesize rs k).consensus_insights.head?
          = some (consensus_line (most_common1 (rs.map (·.sentiment))).2 rs.length
              (most_common1 (rs.map (·.sentiment))).1))
    ∧ (((rs.length : ℚ) * (3/5) ≤ ((most_common1 (rs.map (·.sentiment))).2 : ℚ))
          ↔ 3 * rs.length ≤ 5 * (most_common1 (rs.map (·.sentiment))).2)
    ∧ (synthesize rs k).consensus_insights.length ≤ 5
    ∧ (∀ rs2 : List AgentResponse,
        rs2.map (·.sentiment)
            = [.POSITIVE, .POSITIVE, .POSITIVE, .POSITIVE, .NEUTRAL] →
        (synthesize rs2 k).consensus_insights.head?
          = some "4 out of 5 experts are positive about this idea") := by
  refine ⟨?_, consensus_threshold_iff _ _, ?_, ?_⟩
  · intro hc
    rw [synthesize_nonempty rs k h]
    simp only [find_consensus]
    rw [if_pos (hc : 5 * (most_common1 (rs.map (·.sentiment))).2 ≥ 3 * rs.length)]
    simp
  · rw [synthesize_nonempty rs k h]
    simp only [find_consensus, List.length_take]
    exact Nat.min_le_left _ _
  · intro rs2 hmap
    have hne : rs2 ≠ [] := by
      intro he; rw [he] at hmap; simp at hmap
    have hlen : rs2.length = 5 := by
      have := congrArg List.length hmap
      simpa using this
    have hmc : most_common1 [AgentSentiment.POSITIVE, .POSITIVE, .POSITIVE, .POSITIVE, .NEUTRAL]
        = (.POSITIVE, 4) := by decide
    rw [synthesize_nonempty rs2 k hne]
    simp only [find_consensus, hmap, hlen, hmc]
    rw [if_pos (by norm_num)]
    simp only [List.singleton_append, List.take_succ_cons, List.head?_cons]
    decide

/-- Witness for C6 at sentiments
[POSITIVE, POSITIVE, POSITIVE, POSITIVE, NEUTRAL]. -/
theorem synthesize_consensus_witness :
    (synthesize [demoR .POSITIVE "a", demoR .POSITIVE "b", demoR .POSITIVE "c",
        demoR .POSITIVE "d", demoR .NEUTRAL "e"] 1).consensus_insights.head?
      = some "4 out of 5 experts are positive about this idea" := by
  have h := synthesize_consensus [demoR .POSITIVE "a", demoR .POSITIVE "b",
    demoR .POSITIVE "c", demoR .POSITIVE "d", demoR .NEUTRAL "e"] 1 (by decide)
  exact h.2.2.2 [demoR .POSITIVE "a", demoR .POSITIVE "b", demoR .POSITIVE "c",
    demoR .POSITIVE "d", demoR .NEUTRAL "e"] (by decide)

/-! ## `MultiAgentCoordinator` (`app/core/orchestration/coordinator.py`)

An agent's `analyze` coroutine is opaque to the coordinator: it either
returns an `AgentResponse`, exceeds the timeout (`asyncio.TimeoutError`),
or raises.  It is embedded as a function from the `other_agent_responses`
argument (the only argument that varies between the coordinator's call
sites) to one of these three outcomes. -/

/-- Outcome of one `agent.analyze(...)` call under `asyncio.wait_for`. -/
inductive AgentOutcome where
  | ok (r : AgentResponse)
  | timeout
  | failed (msg : String)

/-- An agent as the coordinator sees it: the response (or failure) it
produces for a given `other_agent_responses` context. -/
structure MAgent where
  behave : Option (List AgentResponse) → AgentOutcome

/-- `MultiAgentCoordinator._run_agent_with_timeout`: returns the response,
or `None` on timeout or any exception (both are caught and logged). -/
def run_agent_with_timeout (a : MAgent) (ctx : Option (List AgentResponse)) :
    Option AgentResponse :=
  match a.behave ctx with
  | .ok r => some r
  | .timeout => none
  | .failed _ => none

/-- `MultiAgentCoordinator.run_parallel_analysis`: one task per agent, all
with the same `previous_responses` context; `asyncio.gather` returns
results in task order; `None` results (timeouts/failures) are dropped,
preserving the order of the survivors. -/
def run_parallel_analysis (agents : List MAgent)
    (previous_responses : Option (List AgentResponse)) : List AgentResponse :=
  (agents.map (fun a => run_agent_with_timeout a previous_responses)).filterMap id

/-- The contexts handed to the agents by `run_parallel_analysis`: every
agent receives exactly `previous_responses`. -/
def parContexts (agents : List MAgent)
    (previous_responses : Option (List AgentResponse)) :
    List (Option (List AgentResponse)) :=
  agents.map (fun _ => previous_responses)

/-- Worker of `run_sequential_dialogue`: `acc` is the growing `responses`
list.  Returns the final response list and, as an execution trace, the
`other_agent_responses` argument passed to each agent in invocation order
(the Python loop passes `responses if responses else None`). -/
def seqRunAux (acc : List AgentResponse) :
    List MAgent → List AgentResponse × List (Option (List AgentResponse))
  | [] => (acc, [])
  | a :: rest =>
    let ctx : Option (List AgentResponse) := if acc.isEmpty then none else some acc
    let acc2 : List AgentResponse :=
      match a.behave ctx with
      | .ok r => acc ++ [r]
      | .timeout => acc
      | .failed _ => acc
    let res := seqRunAux acc2 rest
    (res.1, ctx :: res.2)

/-- `MultiAgentCoordinator.run_sequential_dialogue`: agents run one at a
time in list order; each sees the responses already produced this round;
timeouts and exceptions are caught and the loop continues. -/
def run_sequential_dialogue (agents : List MAgent) : List AgentResponse :=
  (seqRunAux [] agents).1

/-- The context (`other_agent_responses`) each agent was invoked with
during `run_sequential_dialogue`, in invocation order. -/
def seqContexts (agents : List MAgent) : List (Option (List AgentResponse)) :=
  (seqRunAux [] agents).2

theorem seqRunAux_trace_length (agents : List MAgent) (acc : List AgentResponse) :
    (seqRunAux acc agents).2.length = agents.length := by
  induction agents generalizing acc with
  | nil => rfl
  | cons a rest ih => simp [seqRunAux, ih]

theorem seqRunAux_trace_get (agents : List MAgent) (acc : List AgentResponse)
    (k : Nat) (hk : k < agents.length) :
    (seqRunAux acc agents).2[k]?
      = some (let p := (seqRunAux acc (agents.take k)).1
              if p.isEmpty then none else some p) := by
  induction agents generalizing acc k with
  | nil => simp at hk
  | cons a rest ih =>
    cases k with
    | zero => simp [seqRunAux]
    | succ k2 =>
      simp only [seqRunAux, List.getElem?_cons_succ, List.take_succ_cons]
      exact ih _ k2 (by simpa using hk)

/-- C2: in sequential dialogue mode, agents run strictly one at a time in
list order (the trace has one entry per agent, in order), and the k-th
agent's visible peer context is exactly the list of responses already
produced in the same round by the agents that ran before it (`none`, the
empty visible context, when nothing was produced yet); in particular the
first agent receives no peer responses. -/
theorem run_sequential_peer_context (agents : List MAgent) (k : Nat)
    (hk : k < agents.length) :
    (seqContexts agents).length = agents.length
    ∧ (seqContexts agents)[k]?
        = some (if (run_sequential_dialogue (agents.take k)).isEmpty then none
                else some (run_sequential_dialogue (agents.take k)))
    ∧ ((seqContexts agents)[k]?.getD none).getD []
        = run_sequential_dialogue (agents.take k)
    ∧ (agents ≠ [] → (seqContexts agents)[0]? = some none) := by
  have hget := seqRunAux_trace_get agents [] k hk
  refine ⟨seqRunAux_trace_length agents [], hget, ?_, ?_⟩
  · simp only [run_sequential_dialogue]
    rw [show (seqContexts agents)[k]? = (seqRunAux [] agents).2[k]? from rfl, hget]
    by_cases he : (seqRunAux [] (List.take k agents)).1.isEmpty
    · simp [he, List.isEmpty_iff.mp he]
    · simp [he]
  · intro hne
    have h0 : 0 < agents.length := List.length_pos.mpr hne
    have := seqRunAux_trace_get agents [] 0 h0
    simpa [seqRunAux] using this

/-- An agent that always succeeds with a fixed response. -/
def demoAgentOk (name : String) : MAgent :=
  ⟨fun _ => .ok (demoR .POSITIVE name)⟩

/-- An agent that always times out. -/
def demoAgentTimeout : MAgent :=
  ⟨fun _ => .timeout⟩

/-- Witness for C2 with two always-succeeding agents: the second agent's
context is exactly the first agent's response. -/
theorem run_sequential_peer_context_witness :
    (seqContexts [demoAgentOk "a", demoAgentOk "b"])[1]?
        = some (some [demoR .POSITIVE "a"])
    ∧ (seqContexts [demoAgentOk "a", demoAgentOk "b"])[0]? = some none := by
  have h := run_sequential_peer_context [demoAgentOk "a", demoAgentOk "b"] 1 (by decide)
  refine ⟨?_, h.2.2.2 (List.cons_ne_nil _ _)⟩
  rw [h.2.1]
  rfl

theorem run_parallel_all_ok (agents : List MAgent)
    (prev : Option (List AgentResponse))
    (f : MAgent → Option (List AgentResponse) → AgentResponse)
    (hgood : ∀ a ∈ agents, ∀ ctx, a.behave ctx = .ok (f a ctx)) :
    run_parallel_analysis agents prev = agents.map (fun a => f a prev) := by
  induction agents with
  | nil => rfl
  | cons a rest ih =>
    have ha := hgood a (List.mem_cons_self _ _) prev
    simp only [run_parallel_analysis, List.map_cons, List.filterMap_cons,
      run_agent_with_timeout, ha]
    exact congrArg _ (ih (fun b hb ctx => hgood b (List.mem_cons_of_mem _ hb) ctx))

theorem run_parallel_append (l1 l2 : List MAgent)
    (prev : Option (List AgentResponse)) :
    run_parallel_analysis (l1 ++ l2) prev
      = run_parallel_analysis l1 prev ++ run_parallel_analysis l2 prev := by
  simp [run_parallel_analysis, List.filterMap_append]

theorem run_parallel_bad (bad : MAgent) (prev : Option (List AgentResponse))
    (hbad : ∀ ctx r, bad.behave ctx ≠ .ok r) :
    run_parallel_analysis [bad] prev = [] := by
  simp only [run_parallel_analysis, List.map_cons, List.map_nil,
    List.filterMap_cons, run_agent_with_timeout]
  cases hb : bad.behave prev with
  | ok r => exact absurd hb (hbad prev r)
  | timeout => rfl
  | failed m => rfl

theorem seqRunAux_all_ok_length (agents : List MAgent) (acc : List AgentResponse)
    (hgood : ∀ a ∈ agents, ∀ ctx, ∃ r, a.behave ctx = .ok r) :
    (seqRunAux acc agents).1.length = acc.length + agents.length := by
  induction agents generalizing acc with
  | nil => simp [seqRunAux]
  | cons a rest ih =>
    obtain ⟨r, hr⟩ := hgood a (List.mem_cons_self _ _)
      (if acc.isEmpty then none else some acc)
    simp only [seqRunAux, hr]
    rw [ih (acc ++ [r]) (fun b hb ctx => hgood b (List.mem_cons_of_mem _ hb) ctx)]
    simp
    omega

theorem seqRunAux_skip_bad (bad : MAgent)
    (hbad : ∀ ctx r, bad.behave ctx ≠ .ok r)
    (l1 l2 : List MAgent) (acc : List AgentResponse) :
    (seqRunAux acc (l1 ++ bad :: l2)).1 = (seqRunAux acc (l1 ++ l2)).1 := by
  induction l1 generalizing acc with
  | nil =>
    simp only [List.nil_append, seqRunAux]
    cases hb : bad.behave (if acc.isEmpty then none else some acc) with
    | ok r => exact absurd hb (hbad _ r)
    | timeout => rfl
    | failed m => rfl
  | cons a rest ih =>
    simp only [List.cons_append, seqRunAux]
    cases ha : a.behave (if acc.isEmpty then none else some acc) with
    | ok r => exact ih (acc ++ [r])
    | timeout => exact ih acc
    | failed m => exact ih acc

/-- C8: for N agents that all succeed within the timeout,
`run_parallel_analysis` and `run_sequential_dialogue` both return exactly
N responses in the agents' input order; if one agent times out or fails,
its result is silently dropped and the returned list contains the other
N−1 responses with their relative order unchanged. -/
theorem coordinator_order_and_drop
    (pre post : List MAgent) (bad : MAgent) (prev : Option (List AgentResponse))
    (f : MAgent → Option (List AgentResponse) → AgentResponse)
    (hgood : ∀ a ∈ pre ++ post, ∀ ctx, a.behave ctx = .ok (f a ctx))
    (hbad : ∀ ctx r, bad.behave ctx ≠ .ok r) :
    (run_parallel_analysis (pre ++ post) prev = (pre ++ post).map (fun a => f a prev)
      ∧ (run_parallel_analysis (pre ++ post) prev).length = (pre ++ post).length
      ∧ (run_sequential_dialogue (pre ++ post)).length = (pre ++ post).length)
    ∧ (run_parallel_analysis (pre ++ bad :: post) prev
          = (pre ++ post).map (fun a => f a prev)
      ∧ run_sequential_dialogue (pre ++ bad :: post)
          = run_sequential_dialogue (pre ++ post)
      ∧ (run_sequential_dialogue (pre ++ bad :: post)).length
          = pre.length + post.length) := by
  have hpar := run_parallel_all_ok (pre ++ post) prev f hgood
  have hseq : (run_sequential_dialogue (pre ++ post)).length = (pre ++ post).length := by
    have := seqRunAux_all_ok_length (pre ++ post) []
      (fun a ha ctx => ⟨f a ctx, hgood a ha ctx⟩)
    simpa [run_sequential_dialogue] using this
  refine ⟨⟨hpar, by rw [hpar]; simp, hseq⟩, ?_, ?_, ?_⟩
  · have hgpre : ∀ a ∈ pre, ∀ ctx, a.behave ctx = .ok (f a ctx) :=
      fun a ha ctx => hgood a (List.mem_append_left _ ha) ctx
    have hgpost : ∀ a ∈ post, ∀ ctx, a.behave ctx = .ok (f a ctx) :=
      fun a ha ctx => hgood a (List.mem_append_right _ ha) ctx
    rw [show pre ++ bad :: post = pre ++ [bad] ++ post by simp,
      run_parallel_append, run_parallel_append,
      run_parallel_bad bad prev hbad,
      run_parallel_all_ok pre prev f hgpre,
      run_parallel_all_ok post prev f hgpost]
    simp
  · simpa [run_sequential_dialogue] using seqRunAux_skip_bad bad hbad pre post []
  · rw [show run_sequential_dialogue (pre ++ bad :: post)
        = run_sequential_dialogue (pre ++ post) from
      by simpa [run_sequential_dialogue] using seqRunAux_skip_bad bad hbad pre post []]
    rw [hseq]
    simp

/-- Witness for C8: two good agents and one timing-out agent in the
middle; both modes drop the bad agent and keep order. -/
theorem coordinator_order_and_drop_witness :
    (run_parallel_analysis [demoAgentOk "a", demoAgentOk "b"] none
        = [demoR .POSITIVE "a", demoR .POSITIVE "b"]
      ∧ (run_sequential_dialogue [demoAgentOk "a", demoAgentOk "b"]).length = 2)
    ∧ run_parallel_analysis [demoAgentOk "a", demoAgentTimeout, demoAgentOk "b"] none
        = [demoR .POSITIVE "a", demoR .POSITIVE "b"] := by
  have h := coordinator_order_and_drop [demoAgentOk "a"] [demoAgentOk "b"]
    demoAgentTimeout none
    (fun a _ => match a.behave none with | .ok r => r | _ => demoR .POSITIVE "x")
    (by
      intro a ha ctx
      simp only [List.cons_append, List.nil_append, List.mem_cons,
        List.not_mem_nil, or_false] at ha
      rcases ha with rfl | rfl <;> rfl)
    (by intro ctx r hr; cases hr)
  exact ⟨⟨h.1.1, h.1.2.2⟩, h.2.1⟩

/-! ## `FeedbackLoopManager` (`app/core/orchestration/feedback_loop.py`)

`execute_round` awaits the coordinator and then runs the synthesizer; its
`try`/`except` catches any exception from either step.  The two fallible
steps are embedded as outcome values: the coordinator call's outcome, and
the synthesis step's outcome (`synthesize` itself is total, but the spec
treats step 4 — synthesis plus `model_dump_json` — as fallible, so the
model keeps it fallible too).  `datetime.utcnow()` values are passed in
as parameters `t1` (round start) and `t2` (round completion). -/

/-- Result of one awaited step inside `execute_round`'s `try` block. -/
inductive StepOutcome (α : Type) where
  | ok (a : α)
  | raised (msg : String)

/-- `mode` argument of `execute_round`: `"sequential"` selects sequential
dialogue, anything else runs parallel analysis. -/
inductive ExecMode where
  | parallel
  | sequential
deriving DecidableEq, Repr

/-- The effectful collaborators of one `execute_round` call: the
coordinator in each mode (the parallel one as a function of the
`previous_responses` argument it is handed) and the synthesis step (as a
function of the collected responses). -/
structure RoundEffects where
  parallelRun : Option (List AgentResponse) → StepOutcome (List AgentResponse)
  sequentialRun : StepOutcome (List AgentResponse)
  synthRun : List AgentResponse → StepOutcome FeedbackSynthesis

/-- The `FeedbackRound` created at the top of `execute_round`, before the
`try` block. -/
def baseRound (round_id session_id : String) (round_number : Nat)
    (user_input : Option String) (t1 : Nat) : FeedbackRound :=
  { round_id := round_id
    session_id := session_id
    round_number := round_number
    status := .IN_PROGRESS
    user_input := user_input
    agent_responses := []
    synthesis := none
    consensus_points := []
    divergent_points := []
    overall_sentiment := .NEUTRAL
    started_at := t1
    completed_at := none }

/-- The `previous_responses` computed by `execute_round`:
`self.rounds[-1].agent_responses` when `round_number > 1`, else `None`
(regardless of the last round's status). -/
def prev_context (rounds : List FeedbackRound) : Option (List AgentResponse) :=
  if rounds.length + 1 > 1 then rounds.getLast?.map (·.agent_responses) else none

/-- The body of `execute_round`'s `try`/`except`: mutate the base round
according to the coordinator outcome and then the synthesis outcome.
On an exception the mutations already performed persist
(`agent_responses` is only assigned after the coordinator succeeds). -/
def finish_round (base : FeedbackRound)
    (coordOutcome : StepOutcome (List AgentResponse))
    (synthRun : List AgentResponse → StepOutcome FeedbackSynthesis)
    (t2 : Nat) : FeedbackRound :=
  match coordOutcome with
  | .raised _ => { base with status := .FAILED, completed_at := some t2 }
  | .ok responses =>
    match synthRun responses with
    | .raised _ =>
      { base with
          agent_responses := responses
          status := .FAILED
          completed_at := some t2 }
    | .ok syn =>
      { base with
          agent_responses := responses
          synthesis := some syn
          consensus_points := syn.consensus_insights
          divergent_points := syn.divergent_opinions.map
            (fun d => ⟨d.topic, [d.viewpoint_a, d.viewpoint_b]⟩)
          overall_sentiment := syn.overall_sentiment
          status := .COMPLETED
          completed_at := some t2 }

/-- The coordinator outcome selected by `execute_round` for the given
mode. -/
def coordOutcomeOf (rounds : List FeedbackRound) (mode : ExecMode)
    (eff : RoundEffects) : StepOutcome (List AgentResponse) :=
  match mode with
  | .sequential => eff.sequentialRun
  | .parallel => eff.parallelRun (prev_context rounds)

/-- `FeedbackLoopManager.execute_round`: returns the round and the updated
session history (`self.rounds` with the round appended). -/
def execute_round (rounds : List FeedbackRound) (mode : ExecMode)
    (eff : RoundEffects) (user_input : Option String)
    (round_id session_id : String) (t1 t2 : Nat) :
    FeedbackRound × List FeedbackRound :=
  let round_number := rounds.length + 1
  let r := finish_round (baseRound round_id session_id round_number user_input t1)
    (coordOutcomeOf rounds mode eff) eff.synthRun t2
  (r, rounds ++ [r])

/-- The inputs of one `execute_round` call in a session run. -/
structure RoundInput where
  mode : ExecMode
  eff : RoundEffects
  user_input : Option String
  round_id : String
  session_id : String
  t1 : Nat
  t2 : Nat

/-- Successive `execute_round` calls on a fresh session, accumulating
`self.rounds`. -/
def session_rounds (steps : List RoundInput) : List FeedbackRound :=
  steps.foldl
    (fun rounds s =>
      (execute_round rounds s.mode s.eff s.user_input s.round_id s.session_id s.t1 s.t2).2)
    []

theorem finish_round_status (base : FeedbackRound)
    (co : StepOutcome (List AgentResponse))
    (sy : List AgentResponse → StepOutcome FeedbackSynthesis) (t2 : Nat) :
    (finish_round base co sy t2).status = .COMPLETED
      ∨ (finish_round base co sy t2).status = .FAILED := by
  cases co with
  | raised m => exact Or.inr rfl
  | ok responses =>
    cases hs : sy responses with
    | raised m => exact Or.inr (by simp [finish_round, hs])
    | ok syn => exact Or.inl (by simp [finish_round, hs])

theorem finish_round_round_number (base : FeedbackRound)
    (co : StepOutcome (List AgentResponse))
    (sy : List AgentResponse → StepOutcome FeedbackSynthesis) (t2 : Nat) :
    (finish_round base co sy t2).round_number = base.round_number := by
  cases co with
  | raised m => rfl
  | ok responses =>
    cases hs : sy responses with
    | raised m => simp [finish_round, hs]
    | ok syn => simp [finish_round, hs]

/-- C1: if an exception is raised while `execute_round` invokes the
coordinator or the synthesizer, the round is marked FAILED with a
completion timestamp, keeps the agent responses already collected
(synthesis left unset), is still appended to the session history, and
`execute_round` returns that round (the model is total: the `except`
branch absorbs the exception). -/
theorem execute_round_exception_handling (rounds : List FeedbackRound)
    (mode : ExecMode) (eff : RoundEffects) (u : Option String)
    (rid sid : String) (t1 t2 : Nat) (msg : String) :
    (coordOutcomeOf rounds mode eff = .raised msg →
      (execute_round rounds mode eff u rid sid t1 t2).1.status = .FAILED
        ∧ (execute_round rounds mode eff u rid sid t1 t2).1.completed_at = some t2
        ∧ (execute_round rounds mode eff u rid sid t1 t2).1.agent_responses = []
        ∧ (execute_round rounds mode eff u rid sid t1 t2).1.synthesis = none
        ∧ (execute_round rounds mode eff u rid sid t1 t2).2
            = rounds ++ [(execute_round rounds mode eff u rid sid t1 t2).1])
    ∧ (∀ resp, coordOutcomeOf rounds mode eff = .ok resp →
        eff.synthRun resp = .raised msg →
        (execute_round rounds mode eff u rid sid t1 t2).1.status = .FAILED
          ∧ (execute_round rounds mode eff u rid sid t1 t2).1.completed_at = some t2
          ∧ (execute_round rounds mode eff u rid sid t1 t2).1.agent_responses = resp
          ∧ (execute_round rounds mode eff u rid sid t1 t2).1.synthesis = none
          ∧ (execute_round rounds mode eff u rid sid t1 t2).2
              = rounds ++ [(execute_round rounds mode eff u rid sid t1 t2).1]) := by
  constructor
  · intro hco
    simp [execute_round, finish_round, hco, baseRound]
  · intro resp hco hsy
    simp [execute_round, finish_round, hco, hsy, baseRound]

/-- Effects whose coordinator call raises. -/
def effCoordFail : RoundEffects :=
  { parallelRun := fun _ => .raised "boom"
    sequentialRun := .raised "boom"
    synthRun := fun rs => .ok (synthesize rs 1) }

/-- Effects whose coordinator succeeds but whose synthesis step raises. -/
def effSynthFail : RoundEffects :=
  { parallelRun := fun _ => .ok [demoR .POSITIVE "a"]
    sequentialRun := .ok [demoR .POSITIVE "a"]
    synthRun := fun _ => .raised "boom" }

/-- Witness for C1: a coordinator failure and a synthesis failure, both on
a fresh session. -/
theorem execute_round_exception_handling_witness :
    ((execute_round [] .parallel effCoordFail none "r" "s" 0 1).1.status = .FAILED
      ∧ (execute_round [] .parallel effCoordFail none "r" "s" 0 1).1.completed_at = some 1
      ∧ (execute_round [] .parallel effCoordFail none "r" "s" 0 1).1.agent_responses = []
      ∧ (execute_round [] .parallel effCoordFail none "r" "s" 0 1).1.synthesis = none
      ∧ (execute_round [] .parallel effCoordFail none "r" "s" 0 1).2
          = [] ++ [(execute_round [] .parallel effCoordFail none "r" "s" 0 1).1])
    ∧ ((execute_round [] .parallel effSynthFail none "r" "s" 0 1).1.status = .FAILED
      ∧ (execute_round [] .parallel effSynthFail none "r" "s" 0 1).1.completed_at = some 1
      ∧ (execute_round [] .parallel effSynthFail none "r" "s" 0 1).1.agent_responses
          = [demoR .POSITIVE "a"]
      ∧ (execute_round [] .parallel effSynthFail none "r" "s" 0 1).1.synthesis = none
      ∧ (execute_round [] .parallel effSynthFail none "r" "s" 0 1).2
          = [] ++ [(execute_round [] .parallel effSynthFail none "r" "s" 0 1).1]) :=
  ⟨(execute_round_exception_handling [] .parallel effCoordFail none "r" "s" 0 1 "boom").1 rfl,
   (execute_round_exception_handling [] .parallel effSynthFail none "r" "s" 0 1 "boom").2
     [demoR .POSITIVE "a"] rfl rfl⟩

theorem session_fold_props (steps : List RoundInput) (rounds : List FeedbackRound) :
    (steps.foldl
        (fun rounds s =>
          (execute_round rounds s.mode s.eff s.user_input s.round_id s.session_id s.t1 s.t2).2)
        rounds).length = rounds.length + steps.length
    ∧ (∀ i, i < rounds.length →
        (steps.foldl
            (fun rounds s =>
              (execute_round rounds s.mode s.eff s.user_input s.round_id s.session_id s.t1 s.t2).2)
            rounds)[i]? = rounds[i]?)
    ∧ (∀ i, rounds.length ≤ i → i < rounds.length + steps.length →
        ((steps.foldl
            (fun rounds s =>
              (execute_round rounds s.mode s.eff s.user_input s.round_id s.session_id s.t1 s.t2).2)
            rounds)[i]?.map (·.round_number)) = some (i + 1))
    ∧ (∀ r ∈ steps.foldl
          (fun rounds s =>
            (execute_round rounds s.mode s.eff s.user_input s.round_id s.session_id s.t1 s.t2).2)
          rounds,
        r ∈ rounds ∨ r.status = .COMPLETED ∨ r.status = .FAILED) := by
  induction steps generalizing rounds with
  | nil =>
    refine ⟨by simp, fun i _ => rfl, fun i h1 h2 => absurd h2 (by simp; omega),
      fun r hr => Or.inl hr⟩
  | cons s rest ih =>
    have hstep :
        (execute_round rounds s.mode s.eff s.user_input s.round_id s.session_id s.t1 s.t2).2
          = rounds ++
            [(execute_round rounds s.mode s.eff s.user_input s.round_id s.session_id s.t1 s.t2).1] := rfl
    set r0 := (execute_round rounds s.mode s.eff s.user_input s.round_id s.session_id s.t1 s.t2).1 with hr0
    have hnum : r0.round_number = rounds.length + 1 := by
      rw [hr0]
      simp only [execute_round]
      rw [finish_round_round_number]
      rfl
    have hst : r0.status = .COMPLETED ∨ r0.status = .FAILED := finish_round_status _ _ _ _
    obtain ⟨ih1, ih2, ih3, ih4⟩ := ih (rounds ++ [r0])
    simp only [List.foldl_cons, hstep, ← hr0]
    refine ⟨by rw [ih1]; simp; omega, ?_, ?_, ?_⟩
    · intro i hi
      rw [ih2 i (by simp; omega)]
      exact List.getElem?_append_left hi
    · intro i h1 h2
      rcases Nat.eq_or_lt_of_le h1 with rfl | hgt
      · rw [ih2 rounds.length (by simp)]
        rw [List.getElem?_concat_length]
        simp [hnum]
      · refine ih3 i ?_ ?_
        · simp only [List.length_append, List.length_singleton]
          omega
        · simp only [List.length_cons] at h2
          simp only [List.length_append, List.length_singleton]
          omega
    · intro r hr
      rcases ih4 r hr with hmem | hother
      · rcases List.mem_append.mp hmem with h5 | h6
        · exact Or.inl h5
        · right
          rw [List.mem_singleton.mp h6]
          exact hst
      · exact Or.inr hother

/-- C9: for a fresh session, successive `execute_round` calls produce
rounds numbered 1, 2, 3, … with no gaps or repeats (`round_number` equals
the number of previously stored rounds plus one), and every round —
COMPLETED or FAILED — is appended to the session history. -/
theorem session_round_numbering (steps : List RoundInput) :
    (session_rounds steps).length = steps.length
    ∧ (∀ i, i < steps.length →
        ((session_rounds steps)[i]?.map (·.round_number)) = some (i + 1))
    ∧ (∀ r ∈ session_rounds steps, r.status = .COMPLETED ∨ r.status = .FAILED) := by
  obtain ⟨h1, _, h3, h4⟩ := session_fold_props steps []
  refine ⟨by simpa using h1, ?_, ?_⟩
  · intro i hi
    exact h3 i (Nat.zero_le i) (by simpa using hi)
  · intro r hr
    rcases h4 r hr with hmem | hother
    · simp at hmem
    · exact hother

/-- C10: when the session already has rounds and the mode is parallel,
`execute_round` hands the immediately preceding round's `agent_responses`
list to the coordinator regardless of that round's status (a FAILED
round's partially collected responses — possibly `[]` — included), and
the parallel coordinator passes that same context to every agent. -/
theorem execute_round_previous_context (rs : List FeedbackRound) (r : FeedbackRound)
    (eff : RoundEffects) (u : Option String) (rid sid : String) (t1 t2 : Nat) :
    prev_context (rs ++ [r]) = some r.agent_responses
    ∧ (execute_round (rs ++ [r]) .parallel eff u rid sid t1 t2).1
        = finish_round (baseRound rid sid ((rs ++ [r]).length + 1) u t1)
            (eff.parallelRun (some r.agent_responses)) eff.synthRun t2
    ∧ (∀ (agents : List MAgent) (prev : Option (List AgentResponse)),
        parContexts agents prev = List.replicate agents.length prev) := by
  have hprev : prev_context (rs ++ [r]) = some r.agent_responses := by
    simp [prev_context, List.getLast?_concat]
  refine ⟨hprev, ?_, ?_⟩
  · simp only [execute_round, coordOutcomeOf, hprev]
  · intro agents prev
    induction agents with
    | nil => rfl
    | cons a rest ih =>
      simp only [parContexts, List.map_cons, List.length_cons, List.replicate_succ]
      simp only [parContexts] at ih
      rw [ih]

/-! ## `BaseAgent._parse_response` (`app/core/agents/base_agent.py`)

The parser scans the raw LLM text line by line.  A line is recognized as a
section header by a case-sensitive substring check: `'**Name**' in line or
'Name:' in line` (for the confidence section: `'**Confidence Score**'` or
`'Confidence:'`).  Lines after a `Summary` header are concatenated; lines
after a list-section header are collected only when they start with a
bullet marker; lines after `Sentiment`/`Confidence Score` headers are
ignored (their values are extracted from the header line itself). -/

/-- The seven sections of `BaseAgent._parse_response`. -/
inductive RSection where
  | summary
  | opportunities
  | concerns
  | questions
  | recommendations
  | sentiment
  | confidence
deriving DecidableEq, Repr

/-- The `parsed` dict of `_parse_response` (defaults included). -/
structure ParsedResponse where
  summary : String
  opportunities : List String
  concerns : List String
  questions : List String
  recommendations : List String
  sentiment : AgentSentiment
  confidence_score : ℚ
deriving DecidableEq, Repr

/-- The initial `parsed` dict: empty sections, NEUTRAL, confidence 0.7. -/
def initParsed : ParsedResponse :=
  { summary := ""
    opportunities := []
    concerns := []
    questions := []
    recommendations := []
    sentiment := .NEUTRAL
    confidence_score := 7/10 }

/-- Loop state of `_parse_response`: the dict built so far and
`current_section`. -/
structure ParseState where
  acc : ParsedResponse
  current : Option RSection

/-- The section name as it appears inside the fixed markers. -/
def sectionName : RSection → String
  | .summary => "Summary"
  | .opportunities => "Opportunities"
  | .concerns => "Concerns"
  | .questions => "Questions"
  | .recommendations => "Recommendations"
  | .sentiment => "Sentiment"
  | .confidence => "Confidence Score"

/-- The bold marker form recognized for a section. -/
def starMarker (sec : RSection) : String :=
  "**" ++ sectionName sec ++ "**"

/-- The colon marker form recognized for a section: `'Name:'`, except the
confidence section, whose colon form in the source is `'Confidence:'`
(not `'Confidence Score:'`). -/
def colonMarker : RSection → String
  | .confidence => "Confidence:"
  | sec => sectionName sec ++ ":"

/-- The `elif` cascade of `_parse_response` that detects section headers,
in source order; each check is `'**Name**' in line or 'Name:' in line`
(case-sensitive substring containment). -/
def sectionHeaderOf (line : String) : Option RSection :=
  if strContains line "**Summary**" || strContains line "Summary:" then some .summary
  else if strContains line "**Opportunities**" || strContains line "Opportunities:" then
    some .opportunities
  else if strContains line "**Concerns**" || strContains line "Concerns:" then some .concerns
  else if strContains line "**Questions**" || strContains line "Questions:" then some .questions
  else if strContains line "**Recommendations**" || strContains line "Recommendations:" then
    some .recommendations
  else if strContains line "**Sentiment**" || strContains line "Sentiment:" then some .sentiment
  else if strContains line "**Confidence Score**" || strContains line "Confidence:" then
    some .confidence
  else none

/-- Sentiment keyword extraction from the (stripped) sentiment header
line: first match in the fixed order wins, otherwise the previous value is
kept. -/
def extractSentiment (line : String) (prev : AgentSentiment) : AgentSentiment :=
  let s := pyLower line
  if strContains s "very_positive" || strContains s "very positive" then .VERY_POSITIVE
  else if strContains s "positive" then .POSITIVE
  else if strContains s "cautious" then .CAUTIOUS
  else if strContains s "negative" then .NEGATIVE
  else prev

/-- A match of the regex `[0-9]*\.?[0-9]+` anchored at the start of `cs`
(greedy with the backtracking Python's `re` performs). -/
def numTokenAt (cs : List Char) : Option (List Char) :=
  let ds := cs.takeWhile Char.isDigit
  let rest := cs.drop ds.length
  match rest with
  | '.' :: rest2 =>
    let ds2 := rest2.takeWhile Char.isDigit
    if ds2.isEmpty then (if ds.isEmpty then none else some ds)
    else some (ds ++ '.' :: ds2)
  | _ => if ds.isEmpty then none else some ds

/-- `re.search(r'([0-9]*\.?[0-9]+)', line)`: the leftmost match. -/
def findNumToken : List Char → Option (List Char)
  | [] => none
  | c :: rest =>
    match numTokenAt (c :: rest) with
    | some t => some t
    | none => findNumToken rest

/-- Decimal digits to a natural number. -/
def digitsToNat (ds : List Char) : Nat :=
  ds.foldl (fun n c => 10 * n + (c.toNat - 48)) 0

/-- Python `float(token)` for a matched numeric token, exactly in `ℚ`. -/
def tokenToRat (t : List Char) : ℚ :=
  let intPart := t.takeWhile Char.isDigit
  let rest := t.drop intPart.length
  match rest with
  | '.' :: frac => (digitsToNat intPart : ℚ) + (digitsToNat frac : ℚ) / ((10 : ℚ) ^ frac.length)
  | _ => (digitsToNat intPart : ℚ)

/-- `min(max(score, 0.0), 1.0)`. -/
def qClamp (q : ℚ) : ℚ := min (max q 0) 1

/-- Confidence extraction from the (stripped) confidence header line;
keeps the previous value when no numeric token occurs. -/
def extractConfidence (line : String) (prev : ℚ) : ℚ :=
  match findNumToken line.toList with
  | some t => qClamp (tokenToRat t)
  | none => prev

/-- The characters removed by `line.lstrip('-•*0123456789. ')`. -/
def bulletStripChars : List Char :=
  ['-', '•', '*', '0', '1', '2', '3', '4', '5', '6', '7', '8', '9', '.', ' ']

/-- `line and (line.startswith('-') or line.startswith('•') or
line[0].isdigit() or line.startswith('*'))`. -/
def isBulletLine (line : String) : Bool :=
  match line.toList with
  | [] => false
  | c :: _ => c = '-' || c = '•' || c.isDigit || c = '*'

/-- `line.lstrip('-•*0123456789. ')`. -/
def cleanBullet (line : String) : String :=
  (line.toList.dropWhile (fun c => c ∈ bulletStripChars)).asString

/-- Python `s.strip()` (whitespace model: `Char.isWhitespace`). -/
def pyStrip (s : String) : String :=
  ((s.toList.dropWhile Char.isWhitespace).reverse.dropWhile Char.isWhitespace).reverse.asString

/-- Python `s.split(sep)` for a single-character separator. -/
def splitChar (sep : Char) : List Char → List (List Char)
  | [] => [[]]
  | c :: rest =>
    match splitChar sep rest with
    | [] => [[]]
    | h :: t => if c = sep then [] :: h :: t else (c :: h) :: t

/-- `response_text.split('\n')`. -/
def pySplitNewline (s : String) : List String :=
  (splitChar '\n' s.toList).map List.asString

/-- One iteration of the `for line in lines` loop of `_parse_response`. -/
def parseStep (st : ParseState) (rawLine : String) : ParseState :=
  let line := pyStrip rawLine
  match sectionHeaderOf line with
  | some .sentiment =>
    { acc := { st.acc with sentiment := extractSentiment line st.acc.sentiment }
      current := some .sentiment }
  | some .confidence =>
    { acc := { st.acc with confidence_score := extractConfidence line st.acc.confidence_score }
      current := some .confidence }
  | some sec => { acc := st.acc, current := some sec }
  | none =>
    match st.current with
    | some .summary =>
      if line ≠ "" then
        { acc := { st.acc with summary := st.acc.summary ++ line ++ " " }
          current := st.current }
      else st
    | some .opportunities =>
      if isBulletLine line ∧ cleanBullet line ≠ "" then
        { acc := { st.acc with opportunities := st.acc.opportunities ++ [cleanBullet line] }
          current := st.current }
      else st
    | some .concerns =>
      if isBulletLine line ∧ cleanBullet line ≠ "" then
        { acc := { st.acc with concerns := st.acc.concerns ++ [cleanBullet line] }
          current := st.current }
      else st
    | some .questions =>
      if isBulletLine line ∧ cleanBullet line ≠ "" then
        { acc := { st.acc with questions := st.acc.questions ++ [cleanBullet line] }
          current := st.current }
      else st
    | some .recommendations =>
      if isBulletLine line ∧ cleanBullet line ≠ "" then
        { acc := { st.acc with recommendations := st.acc.recommendations ++ [cleanBullet line] }
          current := st.current }
      else st
    | some .sentiment => st
    | some .confidence => st
    | none => st

/-- `BaseAgent._parse_response`: split into lines, run the loop, then
strip the accumulated summary. -/
def parse_response (response_text : String) : ParsedResponse :=
  let fin := (pySplitNewline response_text).foldl parseStep
    { acc := initParsed, current := none }
  { fin.acc with summary := pyStrip fin.acc.summary }

/-- Counterexample to C7: header detection is case-sensitive substring
matching, so a lower-case header line `"summary:"` is not recognized (the
summary stays empty), while the exact-case `"Summary:"` is. -/
theorem parse_response_not_case_insensitive :
    (parse_response "summary:\nGreat idea.").summary = ""
    ∧ (parse_response "Summary:\nGreat idea.").summary = "Great idea."
    ∧ sectionHeaderOf "summary:" = none
    ∧ sectionHeaderOf "Summary" = none := by
  refine ⟨by decide, by decide, by decide, by decide⟩

/-- C7 (amended): the parser recognizes the section headers by
case-sensitive substring match — a line activates a section when it
contains `'**Name**'` or `'Name:'` anywhere (so surrounding decoration is
tolerated, but a bare `Name` line, a differently-cased line, and
`'Confidence Score:'` — whose colon form is `'Confidence:'` — are not
recognized); subsequent non-header lines accumulate into the active
section: non-empty lines are appended to the summary, bullet lines
(modulo marker stripping) to the four list sections, and lines after a
Sentiment or Confidence header are ignored. -/
theorem parse_response_header_detection (st : ParseState) (line : String)
    (h1 : pyStrip line ≠ "") (h2 : sectionHeaderOf (pyStrip line) = none) :
    (∀ sec : RSection,
        sectionHeaderOf (starMarker sec) = some sec
          ∧ sectionHeaderOf (colonMarker sec) = some sec
          ∧ sectionHeaderOf ("### " ++ starMarker sec ++ " (notes)") = some sec)
    ∧ sectionHeaderOf "summary:" = none
    ∧ sectionHeaderOf "Confidence Score:" = none
    ∧ (∀ text, parse_response text =
        (let fin := (pySplitNewline text).foldl parseStep { acc := initParsed, current := none }
         { fin.acc with summary := pyStrip fin.acc.summary }))
    ∧ (st.current = some .summary →
        (parseStep st line).acc.summary = st.acc.summary ++ pyStrip line ++ " "
          ∧ (parseStep st line).current = st.current)
    ∧ (st.current = some .opportunities → isBulletLine (pyStrip line) = true →
        cleanBullet (pyStrip line) ≠ "" →
        (parseStep st line).acc.opportunities
          = st.acc.opportunities ++ [cleanBullet (pyStrip line)])
    ∧ (st.current = some .concerns → isBulletLine (pyStrip line) = true →
        cleanBullet (pyStrip line) ≠ "" →
        (parseStep st line).acc.concerns = st.acc.concerns ++ [cleanBullet (pyStrip line)])
    ∧ (st.current = some .questions → isBulletLine (pyStrip line) = true →
        cleanBullet (pyStrip line) ≠ "" →
        (parseStep st line).acc.questions = st.acc.questions ++ [cleanBullet (pyStrip line)])
    ∧ (st.current = some .recommendations → isBulletLine (pyStrip line) = true →
        cleanBullet (pyStrip line) ≠ "" →
        (parseStep st line).acc.recommendations
          = st.acc.recommendations ++ [cleanBullet (pyStrip line)])
    ∧ (st.current = some .sentiment → parseStep st line = st)
    ∧ (st.current = some .confidence → parseStep st line = st) := by
  refine ⟨fun sec => by cases sec <;> exact ⟨by decide, by decide, by decide⟩,
    by decide, by decide, fun text => rfl, ?_, ?_, ?_, ?_, ?_, ?_, ?_⟩
  · intro hcur
    simp only [parseStep, h2, hcur, h1]
    simp [h1]
  · intro hcur hb hc
    simp only [parseStep, h2, hcur]
    simp [hb, hc]
  · intro hcur hb hc
    simp only [parseStep, h2, hcur]
    simp [hb, hc]
  · intro hcur hb hc
    simp only [parseStep, h2, hcur]
    simp [hb, hc]
  · intro hcur hb hc
    simp only [parseStep, h2, hcur]
    simp [hb, hc]
  · intro hcur
    simp only [parseStep, h2, hcur]
  · intro hcur
    simp only [parseStep, h2, hcur]

/-- Witness for the amended C7: a summary line and a bullet line are
accumulated into their active sections. -/
theorem parse_response_header_detection_witness :
    (parseStep { acc := initParsed, current := some .summary } "hello").acc.summary = "hello "
    ∧ (parseStep { acc := initParsed, current := some .opportunities }
        "- market gap").acc.opportunities = ["market gap"] := by
  have hs := parse_response_header_detection
    { acc := initParsed, current := some .summary } "hello" (by decide) (by decide)
  have ho := parse_response_header_detection
    { acc := initParsed, current := some .opportunities } "- market gap"
    (by decide) (by decide)
  constructor
  · rw [(hs.2.2.2.2.1 rfl).1]
    decide
  · rw [ho.2.2.2.2.2.1 rfl (by decide) (by decide)]
    decide

/-- Witness for C9: two rounds on a fresh session (one synthesis failure,
one coordinator failure) are numbered 1 and 2 and both stored. -/
theorem session_round_numbering_witness :
    (session_rounds [⟨.parallel, effSynthFail, none, "r1", "s", 0, 1⟩,
        ⟨.parallel, effCoordFail, none, "r2", "s", 2, 3⟩]).length = 2
    ∧ ((session_rounds [⟨.parallel, effSynthFail, none, "r1", "s", 0, 1⟩,
        ⟨.parallel, effCoordFail, none, "r2", "s", 2, 3⟩])[0]?.map (·.round_number)) = some 1
    ∧ ((session_rounds [⟨.parallel, effSynthFail, none, "r1", "s", 0, 1⟩,
        ⟨.parallel, effCoordFail, none, "r2", "s", 2, 3⟩])[1]?.map (·.round_number)) = some 2 := by
  have h := session_round_numbering [⟨.parallel, effSynthFail, none, "r1", "s", 0, 1⟩,
    ⟨.parallel, effCoordFail, none, "r2", "s", 2, 3⟩]
  exact ⟨h.1.trans (by rfl), h.2.1 0 (by decide), h.2.1 1 (by decide)⟩
